import Mathlib

/-!
Shallow embedding of the command worker of the rusty-dendrite repository
(`src/axon_utils/command_worker.rs`): the aggregate command-handling
pipeline (`handle_command`), event persistence (`store_events`), the
aggregate registry (`TheAggregateRegistry`), and the flow-controlled
output stream (`create_output_stream`).

Modelling conventions:
* byte buffers (`Vec<u8>`) are `List Nat`;
* asynchronous fallible calls (`async fn ... -> Result<T>`) are pure
  functions into `Except CwError T`; handler trait objects are plain
  Lean functions;
* the UUID generator (`Uuid::new_v4`) is modelled as a fresh-identifier
  supply `gen : Nat → String` consumed at a strictly increasing counter;
* `Box<dyn ApplicableTo<P>>` is modelled by the only capability
  `store_events` uses: its serialized encoding (`encode_u8`).
-/

namespace CommandWorker

/-- Errors raised by the command worker; each constructor corresponds to one
`anyhow!` message in `command_worker.rs`, plus `custom` for errors raised
inside business handlers. -/
inductive CwError where
  | noPayloadData (name : String)
  | noHandler (name : String)
  | missingSourcingHandler (typeName : String)
  | missingAggregateIdentifier
  | couldNotFindAggregateHandler
  | custom (msg : String)
  deriving DecidableEq, Repr

/-- Renders a string the way Rust's `{:?}` debug formatting does for the
simple identifiers used in this development (surrounding quotes). -/
def debugFormat (s : String) : String := "\"" ++ s ++ "\""

/-- Human-readable message of an error, mirroring the `anyhow!` format
strings in `command_worker.rs` (`e.to_string()` on the Rust side). -/
def CwError.toString : CwError → String
  | .noPayloadData n => "No payload data for: " ++ debugFormat n
  | .noHandler n => "No handler for: " ++ debugFormat n
  | .missingSourcingHandler t => "Missing sourcing handler for " ++ debugFormat t
  | .missingAggregateIdentifier => "Missing aggregate identifier"
  | .couldNotFindAggregateHandler => "Could not find aggregate handler"
  | .custom m => m

/-- Modelled from the spec: `SerializedObject`, the universal typed-bytes
envelope of the generated protobuf code (which is not part of the source
tree); `type` is the dispatch key for handler registries. -/
structure SerializedObject where
  type : String
  revision : String
  data : List Nat
  deriving DecidableEq, Repr

/-- Modelled from the spec: the persisted `Event` record of the generated
protobuf code. `meta_data` is an association list standing for the protobuf
map. -/
structure Event where
  message_identifier : String
  timestamp : Int
  aggregate_identifier : String
  aggregate_sequence_number : Int
  aggregate_type : String
  payload : Option SerializedObject
  meta_data : List (String × String)
  snapshot : Bool
  deriving DecidableEq, Repr

/-- Modelled from the spec: the inbound `Command` message (the fields the
worker reads: name, message identifier and optional payload). -/
structure Command where
  name : String
  message_identifier : String
  payload : Option SerializedObject
  deriving DecidableEq, Repr

/-- Modelled from the spec: `TheHandlerRegistry` of `handler_registry.rs`
(not part of the source tree): a map from a type-name string to a handler;
`get` returns the registered handler or absent. An association list with
first-match lookup models the `HashMap`. -/
def TheHandlerRegistry (H : Type) : Type := List (String × H)

/-- Lookup in a handler registry (`HashMap::get` keyed by type name). -/
def TheHandlerRegistry.get {H : Type} (reg : TheHandlerRegistry H) (name : String) :
    Option H :=
  (reg.find? (fun e => e.1 == name)).map (fun e => e.2)

/-- An aggregate-id extractor handler (`TheHandlerRegistry<(),String>` entry):
takes the payload bytes and may produce an aggregate identifier. -/
def IdExtractor : Type := List Nat → Except CwError (Option String)

/-- Models `Box<dyn ApplicableTo<P>>` by its serialized encoding, the only
capability `store_events` uses (`encode_u8`). -/
structure ApplicableEvent where
  encoded : List Nat
  deriving DecidableEq, Repr

/-- The outcome of a command handler (`EmitApplicableEventsAndResponse<P>`):
an ordered list of (type name, event) pairs and an optional response. -/
structure EmitApplicableEventsAndResponse where
  events : List (String × ApplicableEvent)
  response : Option SerializedObject
  deriving DecidableEq, Repr

/-- The wrapped result returned upstream (`EmitEventsAndResponse`). -/
structure EmitEventsAndResponse where
  events : List SerializedObject
  response : Option SerializedObject
  deriving DecidableEq, Repr

/-- A command handler (`TheHandlerRegistry<P,EmitApplicableEventsAndResponse<P>>`
entry): takes the payload bytes and the current projection. -/
def CommandHandler (P : Type) : Type :=
  List Nat → P → Except CwError (Option EmitApplicableEventsAndResponse)

/-- A sourcing handler (`TheHandlerRegistry<P,P>` entry): takes the event
payload bytes and the current projection, and may produce a new projection. -/
def SourcingHandler (P : Type) : Type :=
  List Nat → P → Except CwError (Option P)

/-- `AggregateDefinition<P>` of `command_worker.rs`: a projection name, an
empty-projection factory and the three handler registries. -/
structure AggregateDefinition (P : Type) where
  projection_name : String
  empty_projection : Unit → P
  aggregate_id_extractor_registry : TheHandlerRegistry IdExtractor
  command_handler_registry : TheHandlerRegistry (CommandHandler P)
  sourcing_handler_registry : TheHandlerRegistry (SourcingHandler P)

/-- Modelled from the spec: the event store reached through
`EventStoreClient` (remote service; `event_query.rs` is not part of the
source tree). `events id` is the ordered history returned by
`query_events_from_client`, and `to_sequence_nr id` is the
`ReadHighestSequenceNrRequest` response field used by `store_events`. -/
structure EventStoreClient where
  events : String → List Event
  to_sequence_nr : String → Int

/-- `store_events` (lines 385–419): constructs one `Event` per emitted event
of the outcome and appends them. The generated UUID and the wall-clock
timestamp are passed in as `message_identifier` and `timestamp`; the
returned list is the batch handed to `append_event`. Every record carries
`aggregate_sequence_number = to_sequence_nr + 1`, `aggregate_type =
"Greeting"` and `snapshot = false`, exactly as the source does. -/
def store_events (client : EventStoreClient) (aggregate_id : String)
    (message_identifier : String) (timestamp : Int)
    (events : EmitApplicableEventsAndResponse) : List Event :=
  events.events.map (fun e =>
    { message_identifier := message_identifier
      timestamp := timestamp
      aggregate_identifier := aggregate_id
      aggregate_sequence_number := client.to_sequence_nr aggregate_id + 1
      aggregate_type := "Greeting"
      payload := some { type := e.1, revision := "", data := e.2.encoded }
      meta_data := []
      snapshot := false })

/-- The event-replay fold inlined in `handle_command` (lines 175–187): for
each historical event with a payload, look up the payload's type in the
sourcing registry (failing when absent), invoke the handler with the
payload bytes and the current projection, and replace the projection by
the handler's result when one is produced. Events without a payload are
skipped. -/
def replay_events {P : Type} (reg : TheHandlerRegistry (SourcingHandler P)) :
    List Event → P → Except CwError P
  | [], projection => .ok projection
  | event :: rest, projection =>
    match event.payload with
    | none => replay_events reg rest projection
    | some payload =>
      match reg.get payload.type with
      | none => .error (.missingSourcingHandler payload.type)
      | some sourcing_handler =>
        match sourcing_handler payload.data projection with
        | .error e => .error e
        | .ok r => replay_events reg rest (r.getD projection)

/-- The post-dispatch aggregate-identifier resolution of `handle_command`
(lines 190–196): when no identifier was resolved pre-dispatch and the
outcome carries a response, try the id-extractor registered under the
response's type. -/
def post_dispatch_aggregate_id {P : Type} (ad : AggregateDefinition P)
    (aggregate_id : Option String)
    (result : Option EmitApplicableEventsAndResponse) :
    Except CwError (Option String) :=
  match aggregate_id, result with
  | none, some r =>
    match r.response with
    | some resp =>
      match ad.aggregate_id_extractor_registry.get resp.type with
      | some aggregate_id_extractor => aggregate_id_extractor resp.data
      | none => .ok none
    | none => .ok none
  | id, _ => .ok id

/-- `handle_command` (lines 159–214). In addition to the wrapped result the
embedding returns the list of `Event` records appended by `store_events`
(empty when nothing is persisted), exposing the persistence effect. The
generated UUID and timestamp of `store_events` are the `msgId` and `ts`
parameters. -/
def handle_command {P : Type} (command : Command) (ad : AggregateDefinition P)
    (client : EventStoreClient) (msgId : String) (ts : Int) :
    Except CwError (Option EmitEventsAndResponse × List Event) := do
  let data ← match command.payload with
    | some p => Except.ok p.data
    | none => Except.error (.noPayloadData command.name)
  let aggregate_id0 : Option String ←
    match ad.aggregate_id_extractor_registry.get command.name with
    | some aggregate_id_extractor => aggregate_id_extractor data
    | none => Except.ok none
  let handler ← match ad.command_handler_registry.get command.name with
    | some h => Except.ok h
    | none => Except.error (.noHandler command.name)
  let projection ← match aggregate_id0 with
    | some aggregate_id =>
      replay_events ad.sourcing_handler_registry (client.events aggregate_id)
        (ad.empty_projection ())
    | none => Except.ok (ad.empty_projection ())
  let result ← handler data projection
  let aggregate_id ← post_dispatch_aggregate_id ad aggregate_id0 result
  match aggregate_id with
  | some aggregate_id =>
    let appended := match result with
      | some r => store_events client aggregate_id msgId ts r
      | none => []
    Except.ok
      (result.map (fun r => { events := [], response := r.response }), appended)
  | none => Except.error .missingAggregateIdentifier

/-- The data of a `Box<dyn AggregateHandle>` that the worker and the
registry use: its `name()`, its `command_names()` (the keys of the
aggregate definition's command registry) and its `handle` entry point. -/
structure AggregateHandle where
  name : String
  command_names : List String
  handle : Command → Except CwError (Option EmitEventsAndResponse)

/-- `TheAggregateRegistry` (lines 84–86): the `HashMap` from aggregate name
to aggregate handle, modelled as an association list. -/
structure TheAggregateRegistry where
  handlers : List (String × AggregateHandle)

/-- Registry lookup (`TheAggregateRegistry::get`, lines 94–96). -/
def TheAggregateRegistry.get (reg : TheAggregateRegistry) (name : String) :
    Option AggregateHandle :=
  (reg.handlers.find? (fun e => e.1 == name)).map (fun e => e.2)

/-- Insert into the routing `HashMap`: the new binding shadows any earlier
binding of the same command name (`HashMap::insert` overwrites). -/
def routingInsert (m : List (String × String)) (k v : String) :
    List (String × String) :=
  (k, v) :: m

/-- Lookup in the routing `HashMap` (`HashMap::get`). -/
def routingGet (m : List (String × String)) (k : String) : Option String :=
  (m.find? (fun e => e.1 == k)).map (fun e => e.2)

/-- `TheAggregateRegistry::register` (lines 98–107): for every handle and
every command name it exposes, push the name onto the command list and
insert `command name ↦ aggregate name` into the routing table. -/
def TheAggregateRegistry.register (reg : TheAggregateRegistry)
    (commands : List String) (command_to_aggregate_mapping : List (String × String)) :
    List String × List (String × String) :=
  reg.handlers.foldl
    (fun acc entry =>
      entry.2.command_names.foldl
        (fun acc2 command_name =>
          (acc2.1 ++ [command_name], routingInsert acc2.2 command_name entry.1))
        acc)
    (commands, command_to_aggregate_mapping)

/-- The per-command dispatch of the worker loop (lines 262–269): the result
defaults to the "Could not find aggregate handler" error and is replaced
by the aggregate handle's result only when both the routing table and the
registry resolve. -/
def worker_dispatch (command_to_aggregate_mapping : List (String × String))
    (reg : TheAggregateRegistry) (command : Command) :
    Except CwError (Option EmitEventsAndResponse) :=
  match routingGet command_to_aggregate_mapping command.name with
  | none => .error .couldNotFindAggregateHandler
  | some aggregate_name =>
    match reg.get aggregate_name with
    | none => .error .couldNotFindAggregateHandler
    | some aggregate_definition => aggregate_definition.handle command

/-- Modelled from the spec: `ErrorMessage` of the generated protobuf code. -/
structure ErrorMessage where
  message : String
  location : String
  details : List String
  error_code : String
  deriving DecidableEq, Repr

/-- Modelled from the spec: the outbound `CommandSubscription` message. -/
structure CommandSubscription where
  message_id : String
  command : String
  client_id : String
  component_name : String
  load_factor : Int
  deriving DecidableEq, Repr

/-- Modelled from the spec: the outbound `FlowControl` message. -/
structure FlowControl where
  client_id : String
  permits : Int
  deriving DecidableEq, Repr

/-- Modelled from the spec: the outbound `CommandResponse` message. -/
structure CommandResponse where
  message_identifier : String
  request_identifier : String
  payload : Option SerializedObject
  error_code : String
  error_message : Option ErrorMessage
  meta_data : List (String × String)
  processing_instructions : List String
  deriving DecidableEq, Repr

/-- Modelled from the spec: the request alternatives of
`CommandProviderOutbound`. -/
inductive OutboundRequest where
  | subscribe (s : CommandSubscription)
  | flowControl (f : FlowControl)
  | commandResponse (r : CommandResponse)
  deriving DecidableEq, Repr

/-- Modelled from the spec: the outbound protocol instruction envelope. -/
structure CommandProviderOutbound where
  instruction_id : String
  request : Option OutboundRequest
  deriving DecidableEq, Repr

/-- `AxonCommandResult` (lines 227–231): one dequeued pipeline result. -/
structure AxonCommandResult where
  message_identifier : String
  result : Except CwError (Option EmitEventsAndResponse)

/-- `permits_batch_size` (line 317). -/
def permits_batch_size : Int := 3

/-- The subscribe phase of `create_output_stream` (lines 297–315): one
`Subscribe` instruction per command name, consuming two fresh identifiers
per instruction (the subscription's message id and the instruction id).
Returns the instructions together with the advanced identifier counter. -/
def subscribePhase (gen : Nat → String) (client_id : String) :
    List String → Nat → List CommandProviderOutbound × Nat
  | [], c => ([], c)
  | command_name :: rest, c =>
    let subscription : CommandSubscription :=
      { message_id := gen c
        command := command_name
        client_id := client_id
        component_name := client_id
        load_factor := 100 }
    let instruction : CommandProviderOutbound :=
      { instruction_id := gen (c + 1)
        request := some (.subscribe subscription) }
    let (restInstructions, c') := subscribePhase gen client_id rest (c + 2)
    (instruction :: restInstructions, c')

/-- The `CommandResponse` built for one dequeued result (lines 333–356):
a fresh response identifier, the original command's message identifier as
`request_identifier`, and either the successful outcome's response as the
payload with empty error code, or error code `"ERROR"` with the failure's
message. -/
def steadyResponse (gen : Nat → String) (c : Nat)
    (axon_command_result : AxonCommandResult) : CommandResponse :=
  let base : CommandResponse :=
    { message_identifier := gen c
      request_identifier := axon_command_result.message_identifier
      payload := none
      error_code := ""
      error_message := none
      meta_data := []
      processing_instructions := [] }
  match axon_command_result.result with
  | .ok result => { base with payload := (result.map (fun r => r.response)).join }
  | .error e =>
    { base with
        error_code := "ERROR"
        error_message := some
          { message := e.toString
            location := ""
            details := []
            error_code := "ERROR" } }

/-- One iteration of the steady-state loop of `create_output_stream`
(lines 331–379): emit the `CommandResponse` for a dequeued result
(consuming a fresh response identifier and a fresh instruction identifier),
decrement the permit balance, and grant `permits_batch_size` more permits
when the balance has dropped to at most `permits_batch_size`. Returns the
emitted instructions, the advanced identifier counter and the new balance. -/
def steadyStep (gen : Nat → String) (client_id : String) (c : Nat)
    (permits : Int) (axon_command_result : AxonCommandResult) :
    List CommandProviderOutbound × Nat × Int :=
  let response : CommandResponse := steadyResponse gen c axon_command_result
  let instruction : CommandProviderOutbound :=
    { instruction_id := gen (c + 1)
      request := some (.commandResponse response) }
  let permits' := permits - 1
  if permits' ≤ permits_batch_size then
    let flow_control : FlowControl :=
      { client_id := client_id, permits := permits_batch_size }
    let fcInstruction : CommandProviderOutbound :=
      { instruction_id := gen (c + 2)
        request := some (.flowControl flow_control) }
    ([instruction, fcInstruction], c + 3, permits' + permits_batch_size)
  else
    ([instruction], c + 2, permits')

/-- The steady-state loop of `create_output_stream` over the (finite)
contents of the result queue, threading the identifier counter and the
permit balance. -/
def steadyRun (gen : Nat → String) (client_id : String) :
    List AxonCommandResult → Nat → Int →
    List CommandProviderOutbound × Nat × Int
  | [], c, permits => ([], c, permits)
  | r :: rest, c, permits =>
    let (instructions, c', permits') := steadyStep gen client_id c permits r
    let (restInstructions, c'', permits'') :=
      steadyRun gen client_id rest c' permits'
    (instructions ++ restInstructions, c'', permits'')

/-- `create_output_stream` (lines 294–383) over a finite queue `rx`: the
subscribe instructions, then the initial `FlowControl` with
`permits = permits_batch_size * 2`, then the steady-state instructions. -/
def create_output_stream (gen : Nat → String) (client_id : String)
    (command_box : List String) (rx : List AxonCommandResult) :
    List CommandProviderOutbound :=
  let (subs, c1) := subscribePhase gen client_id command_box 0
  let permits : Int := permits_batch_size * 2
  let flow_control : FlowControl := { client_id := client_id, permits := permits }
  let fcInstruction : CommandProviderOutbound :=
    { instruction_id := gen c1
      request := some (.flowControl flow_control) }
  subs ++ fcInstruction :: (steadyRun gen client_id rx (c1 + 1) permits).1

/-- Tests whether a request is a `FlowControl` request. -/
def OutboundRequest.isFlowControlReq : OutboundRequest → Bool
  | .flowControl _ => true
  | _ => false

/-- Tests whether a request is a `Subscribe` request. -/
def OutboundRequest.isSubscribeReq : OutboundRequest → Bool
  | .subscribe _ => true
  | _ => false

/-- Tests whether a request is a `CommandResponse` request. -/
def OutboundRequest.isCommandResponseReq : OutboundRequest → Bool
  | .commandResponse _ => true
  | _ => false

/-- Tests whether an instruction carries a `FlowControl` request. -/
def CommandProviderOutbound.isFlowControlInstr (i : CommandProviderOutbound) : Bool :=
  (i.request.map OutboundRequest.isFlowControlReq).getD false

/-- Tests whether an instruction carries a `Subscribe` request. -/
def CommandProviderOutbound.isSubscribeInstr (i : CommandProviderOutbound) : Bool :=
  (i.request.map OutboundRequest.isSubscribeReq).getD false

/-- Tests whether an instruction carries a `CommandResponse` request. -/
def CommandProviderOutbound.isCommandResponseInstr (i : CommandProviderOutbound) : Bool :=
  (i.request.map OutboundRequest.isCommandResponseReq).getD false

/-- A one-aggregate registry used by the routing-table witness. -/
def greetingRegistry : TheAggregateRegistry :=
  { handlers := [("Greeting",
      { name := "Greeting"
        command_names := ["GreetCommand"]
        handle := fun _ => .ok none })] }

/-- An aggregate definition with a pre-dispatch id extractor for `"Cmd"`
but an empty command registry and an empty sourcing registry; used to
exercise the order of the command-registry lookup and the replay fold. -/
def sourcingGapDefinition : AggregateDefinition Nat :=
  { projection_name := "Agg"
    empty_projection := fun _ => 0
    aggregate_id_extractor_registry := [("Cmd", fun _ => .ok (some "agg"))]
    command_handler_registry := []
    sourcing_handler_registry := [] }

/-- An event store whose history for any aggregate holds one event with
payload type `"Ev"` (for which `sourcingGapDefinition` registers no
sourcing handler). -/
def sourcingGapClient : EventStoreClient :=
  { events := fun _ =>
      [{ message_identifier := "e1"
         timestamp := 0
         aggregate_identifier := "agg"
         aggregate_sequence_number := 1
         aggregate_type := "Greeting"
         payload := some { type := "Ev", revision := "", data := [] }
         meta_data := []
         snapshot := false }]
    to_sequence_nr := fun _ => 1 }

/-- A command named `"Cmd"` with a payload, aimed at
`sourcingGapDefinition`. -/
def sourcingGapCommand : Command :=
  { name := "Cmd"
    message_identifier := "m1"
    payload := some { type := "Cmd", revision := "", data := [] } }

/-- Decidable equality for `Except`, used to evaluate pipeline results on
concrete inputs. -/
instance {ε α : Type} [DecidableEq ε] [DecidableEq α] : DecidableEq (Except ε α)
  | .error e, .error e' =>
    if h : e = e' then .isTrue (by rw [h])
    else .isFalse (by intro hc; injection hc; contradiction)
  | .error _, .ok _ => .isFalse (by intro hc; exact Except.noConfusion hc)
  | .ok _, .error _ => .isFalse (by intro hc; exact Except.noConfusion hc)
  | .ok a, .ok a' =>
    if h : a = a' then .isTrue (by rw [h])
    else .isFalse (by intro hc; injection hc; contradiction)

/-- An aggregate definition whose identifier is only extractable from the
response type `"Ack"` (a creation command); used by the
post-dispatch-resolution witness. -/
def creationDefinition : AggregateDefinition Nat :=
  { projection_name := "Agg"
    empty_projection := fun _ => 0
    aggregate_id_extractor_registry := [("Ack", fun _ => .ok (some "xxx"))]
    command_handler_registry := [("CreateCmd", fun _ _ => .ok (some
      { events := [("Ev", { encoded := [7] })]
        response := some { type := "Ack", revision := "", data := [1] } }))]
    sourcing_handler_registry := [] }

/-- An event store with empty histories and highest sequence number 41. -/
def creationClient : EventStoreClient :=
  { events := fun _ => []
    to_sequence_nr := fun _ => 41 }

/-- The creation command aimed at `creationDefinition`. -/
def creationCommand : Command :=
  { name := "CreateCmd"
    message_identifier := "mc"
    payload := some { type := "CreateCmd", revision := "", data := [] } }

/-- An aggregate definition with a sourcing handler for `"Ev"` that adds
the payload length to the projection, and a command handler that fails
with a message showing the projection it received; used by the
replay-fold witness. -/
def replayDefinition : AggregateDefinition Nat :=
  { projection_name := "Agg"
    empty_projection := fun _ => 0
    aggregate_id_extractor_registry := [("Cmd", fun _ => .ok (some "agg"))]
    command_handler_registry := [("Cmd", fun _ p => .error (.custom (Nat.repr p)))]
    sourcing_handler_registry := [("Ev", fun d p => .ok (some (p + d.length)))] }

/-- An event store whose history holds two `"Ev"` events with payloads of
lengths 3 and 1. -/
def replayClient : EventStoreClient :=
  { events := fun _ =>
      [{ message_identifier := "e1"
         timestamp := 0
         aggregate_identifier := "agg"
         aggregate_sequence_number := 1
         aggregate_type := "Greeting"
         payload := some { type := "Ev", revision := "", data := [1, 2, 3] }
         meta_data := []
         snapshot := false },
       { message_identifier := "e2"
         timestamp := 0
         aggregate_identifier := "agg"
         aggregate_sequence_number := 2
         aggregate_type := "Greeting"
         payload := some { type := "Ev", revision := "", data := [4] }
         meta_data := []
         snapshot := false }]
    to_sequence_nr := fun _ => 2 }

/-- An aggregate definition with a pre-dispatch id extractor and a command
handler emitting one event and a response; used by the events-stripped
witness. -/
def persistDefinition : AggregateDefinition Nat :=
  { projection_name := "Agg"
    empty_projection := fun _ => 0
    aggregate_id_extractor_registry := [("Cmd", fun _ => .ok (some "agg"))]
    command_handler_registry := [("Cmd", fun _ _ => .ok (some
      { events := [("Ev", { encoded := [9] })]
        response := some { type := "Ack", revision := "", data := [2] } }))]
    sourcing_handler_registry := [] }

/-- An event store with empty histories and highest sequence number 7. -/
def persistClient : EventStoreClient :=
  { events := fun _ => []
    to_sequence_nr := fun _ => 7 }

/-- Explicit form of a steady-state step whose decrement triggers a
flow-control grant. -/
theorem steadyStep_eq_grant (gen : Nat → String) (client_id : String)
    (c : Nat) (p : Int) (r : AxonCommandResult)
    (h : p - 1 ≤ permits_batch_size) :
    steadyStep gen client_id c p r =
      ([{ instruction_id := gen (c + 1),
          request := some (.commandResponse (steadyResponse gen c r)) },
        { instruction_id := gen (c + 2),
          request := some (.flowControl
            { client_id := client_id, permits := permits_batch_size }) }],
       c + 3, p - 1 + permits_batch_size) := by
  simp [steadyStep, h]

/-- Explicit form of a steady-state step whose decrement leaves the balance
above the batch size. -/
theorem steadyStep_eq_nogrant (gen : Nat → String) (client_id : String)
    (c : Nat) (p : Int) (r : AxonCommandResult)
    (h : ¬ p - 1 ≤ permits_batch_size) :
    steadyStep gen client_id c p r =
      ([{ instruction_id := gen (c + 1),
          request := some (.commandResponse (steadyResponse gen c r)) }],
       c + 2, p - 1) := by
  simp [steadyStep, h]

/-- Unfolding of the steady-state loop at a cons cell. -/
theorem steadyRun_cons (gen : Nat → String) (client_id : String)
    (r : AxonCommandResult) (rest : List AxonCommandResult)
    (c : Nat) (p : Int) :
    steadyRun gen client_id (r :: rest) c p =
      ((steadyStep gen client_id c p r).1 ++
        (steadyRun gen client_id rest (steadyStep gen client_id c p r).2.1
          (steadyStep gen client_id c p r).2.2).1,
       (steadyRun gen client_id rest (steadyStep gen client_id c p r).2.1
          (steadyStep gen client_id c p r).2.2).2) := by
  simp [steadyRun]

/-- A steady-state run that emits no flow-control instruction decrements
the balance by exactly one per processed result. -/
theorem steadyRun_no_grant_balance (gen : Nat → String) (client_id : String) :
    ∀ (rs : List AxonCommandResult) (c : Nat) (p : Int),
      (∀ instr ∈ (steadyRun gen client_id rs c p).1,
        instr.isFlowControlInstr = false) →
      (steadyRun gen client_id rs c p).2.2 = p - rs.length := by
  intro rs
  induction rs with
  | nil => intro c p _; simp [steadyRun]
  | cons r rest ih =>
    intro c p h
    by_cases hp : p - 1 ≤ permits_batch_size
    · exfalso
      have hex : ∃ instr ∈ (steadyRun gen client_id (r :: rest) c p).1,
          instr.isFlowControlInstr = true := by
        rw [steadyRun_cons, steadyStep_eq_grant gen client_id c p r hp]
        refine ⟨{ instruction_id := gen (c + 2)
                  request := some (.flowControl
                    { client_id := client_id
                      permits := permits_batch_size }) }, by simp, ?_⟩
        simp [CommandProviderOutbound.isFlowControlInstr,
          OutboundRequest.isFlowControlReq]
      obtain ⟨instr, hi, hfc⟩ := hex
      have hno := h instr hi
      rw [hno] at hfc
      exact Bool.noConfusion hfc
    · have hstep := steadyStep_eq_nogrant gen client_id c p r hp
      have htail : ∀ instr ∈ (steadyRun gen client_id rest (c + 2) (p - 1)).1,
          instr.isFlowControlInstr = false := by
        intro instr hi
        apply h
        rw [steadyRun_cons, hstep]
        simp [hstep] at hi ⊢
        exact Or.inr hi
      have := ih (c + 2) (p - 1) htail
      rw [steadyRun_cons, hstep]
      simp only [hstep] at this ⊢
      rw [this]
      simp only [List.length_cons]
      push_cast
      ring

/-- C2: in the steady state, each step emits a flow-control grant exactly
when the decrement makes the balance reach a value at most 3, the grant
carries `permits = 3` and restores `balance + 3`; and starting from the
initial balance of 6, after `k` response emissions with no intervening
grants the tracked balance equals `6 - k`. -/
theorem flow_control_credit_invariant (gen : Nat → String) (client_id : String) :
    (∀ (c : Nat) (permits : Int) (r : AxonCommandResult),
      ((∃ instr ∈ (steadyStep gen client_id c permits r).1,
          instr.isFlowControlInstr = true) ↔ permits - 1 ≤ 3) ∧
      (∀ instr ∈ (steadyStep gen client_id c permits r).1, ∀ f,
        instr.request = some (.flowControl f) → f.permits = 3) ∧
      (steadyStep gen client_id c permits r).2.2 =
        if permits - 1 ≤ 3 then permits - 1 + 3 else permits - 1) ∧
    (∀ (rs : List AxonCommandResult) (c : Nat),
      (∀ instr ∈ (steadyRun gen client_id rs c 6).1,
        instr.isFlowControlInstr = false) →
      (steadyRun gen client_id rs c 6).2.2 = 6 - rs.length) := by
  constructor
  · intro c p r
    by_cases hp : p - 1 ≤ permits_batch_size
    · rw [steadyStep_eq_grant gen client_id c p r hp]
      refine ⟨?_, ?_, ?_⟩
      · constructor
        · intro _
          simpa [permits_batch_size] using hp
        · intro _
          refine ⟨{ instruction_id := gen (c + 2)
                    request := some (.flowControl
                      { client_id := client_id
                        permits := permits_batch_size }) }, by simp, ?_⟩
          simp [CommandProviderOutbound.isFlowControlInstr,
            OutboundRequest.isFlowControlReq]
      · intro instr hi f hf
        simp only [List.mem_cons, List.mem_singleton, List.not_mem_nil,
          or_false] at hi
        rcases hi with rfl | rfl
        · simp at hf
        · simp at hf
          rw [← hf]
          rfl
      · have : p - 1 ≤ 3 := by simpa [permits_batch_size] using hp
        simp [this, permits_batch_size]
    · rw [steadyStep_eq_nogrant gen client_id c p r hp]
      refine ⟨?_, ?_, ?_⟩
      · constructor
        · intro hex
          exfalso
          obtain ⟨instr, hi, hfc⟩ := hex
          simp only [List.mem_singleton] at hi
          subst hi
          simp [CommandProviderOutbound.isFlowControlInstr,
            OutboundRequest.isFlowControlReq] at hfc
        · intro hle
          exact absurd (by simpa [permits_batch_size] using hle) hp
      · intro instr hi f hf
        simp only [List.mem_singleton] at hi
        subst hi
        simp at hf
      · have : ¬ p - 1 ≤ 3 := fun hle =>
          hp (by simpa [permits_batch_size] using hle)
        simp [this]
  · exact fun rs c h => steadyRun_no_grant_balance gen client_id rs c 6 h

/-- Witness for `flow_control_credit_invariant`: two successful results
processed from balance 6 emit no grant and leave the balance at 4. -/
theorem flow_control_credit_invariant_witness :
    (steadyRun (fun _ => "u") "client"
      [{ message_identifier := "m1", result := .ok none },
       { message_identifier := "m2", result := .ok none }] 0 6).2.2 = 4 := by
  have h := (flow_control_credit_invariant (fun _ => "u") "client").2
    [{ message_identifier := "m1", result := .ok none },
     { message_identifier := "m2", result := .ok none }] 0 (by decide)
  simpa using h

/-- Each subscribe-phase instruction corresponds positionally to one
registered command name, carrying `load_factor = 100` and the worker's
client id as both `client_id` and `component_name`. -/
theorem subscribePhase_forall₂ (gen : Nat → String) (client_id : String) :
    ∀ (names : List String) (c : Nat),
      List.Forall₂ (fun (instr : CommandProviderOutbound) (name : String) =>
        ∃ m i, instr =
          { instruction_id := i
            request := some (.subscribe
              { message_id := m
                command := name
                client_id := client_id
                component_name := client_id
                load_factor := 100 }) })
        (subscribePhase gen client_id names c).1 names := by
  intro names
  induction names with
  | nil => intro c; simp [subscribePhase]
  | cons n rest ih =>
    intro c
    simp only [subscribePhase]
    exact List.Forall₂.cons ⟨gen c, gen (c + 1), rfl⟩ (ih (c + 2))

/-- No subscribe-phase instruction is a command response. -/
theorem subscribePhase_no_command_response (gen : Nat → String)
    (client_id : String) :
    ∀ (names : List String) (c : Nat),
      ∀ instr ∈ (subscribePhase gen client_id names c).1,
        instr.isCommandResponseInstr = false := by
  intro names
  induction names with
  | nil => intro c instr hi; simp [subscribePhase] at hi
  | cons n rest ih =>
    intro c instr hi
    simp only [subscribePhase] at hi
    rcases List.mem_cons.mp hi with rfl | hi'
    · simp [CommandProviderOutbound.isCommandResponseInstr,
        OutboundRequest.isCommandResponseReq]
    · exact ih (c + 2) instr hi'

/-- No steady-state instruction is a subscribe instruction. -/
theorem steadyRun_no_subscribe (gen : Nat → String) (client_id : String) :
    ∀ (rs : List AxonCommandResult) (c : Nat) (p : Int),
      ∀ instr ∈ (steadyRun gen client_id rs c p).1,
        instr.isSubscribeInstr = false := by
  intro rs
  induction rs with
  | nil => intro c p instr hi; simp [steadyRun] at hi
  | cons r rest ih =>
    intro c p instr hi
    rw [steadyRun_cons] at hi
    simp only [List.mem_append] at hi
    rcases hi with hi | hi
    · by_cases hp : p - 1 ≤ permits_batch_size
      · rw [steadyStep_eq_grant gen client_id c p r hp] at hi
        simp only [List.mem_cons, List.not_mem_nil, or_false] at hi
        rcases hi with rfl | rfl <;>
          simp [CommandProviderOutbound.isSubscribeInstr,
            OutboundRequest.isSubscribeReq]
      · rw [steadyStep_eq_nogrant gen client_id c p r hp] at hi
        simp only [List.mem_singleton] at hi
        subst hi
        simp [CommandProviderOutbound.isSubscribeInstr,
          OutboundRequest.isSubscribeReq]
    · exact ih _ _ instr hi

/-- C3: the output stream is, in order, exactly one `Subscribe` instruction
per registered command name (with `load_factor = 100`), then one initial
`FlowControl` instruction with `permits = permits_batch_size * 2 = 6`, then
the steady-state instructions; no `CommandResponse` occurs before all
subscriptions and the initial flow control, and no `Subscribe` occurs
after them. -/
theorem output_stream_phase_order (gen : Nat → String) (client_id : String)
    (command_box : List String) (rx : List AxonCommandResult) :
    ∃ subs fcInstruction steady,
      create_output_stream gen client_id command_box rx
        = subs ++ fcInstruction :: steady ∧
      List.Forall₂ (fun (instr : CommandProviderOutbound) (name : String) =>
        ∃ m i, instr =
          { instruction_id := i
            request := some (.subscribe
              { message_id := m
                command := name
                client_id := client_id
                component_name := client_id
                load_factor := 100 }) })
        subs command_box ∧
      fcInstruction.request = some (.flowControl
        { client_id := client_id, permits := permits_batch_size * 2 }) ∧
      permits_batch_size * 2 = 6 ∧
      (∀ instr ∈ subs, instr.isCommandResponseInstr = false) ∧
      fcInstruction.isCommandResponseInstr = false ∧
      (∀ instr ∈ steady, instr.isSubscribeInstr = false) := by
  refine ⟨(subscribePhase gen client_id command_box 0).1,
    { instruction_id := gen (subscribePhase gen client_id command_box 0).2
      request := some (.flowControl
        { client_id := client_id
          permits := permits_batch_size * 2 }) },
    (steadyRun gen client_id rx ((subscribePhase gen client_id command_box 0).2 + 1)
      (permits_batch_size * 2)).1,
    rfl,
    subscribePhase_forall₂ gen client_id command_box 0,
    rfl, rfl,
    subscribePhase_no_command_response gen client_id command_box 0,
    rfl,
    fun instr hi => steadyRun_no_subscribe gen client_id rx _ _ instr hi⟩

/-- Witness for `output_stream_phase_order` at a concrete command list and
an empty queue. -/
theorem output_stream_phase_order_witness :
    ∃ subs fcInstruction steady,
      create_output_stream (fun _ => "u") "client" ["GreetCommand"] []
        = subs ++ fcInstruction :: steady ∧
      fcInstruction.request = some (.flowControl
        { client_id := "client", permits := permits_batch_size * 2 }) := by
  obtain ⟨subs, fcI, steady, h1, _, h3, _⟩ :=
    output_stream_phase_order (fun _ => "u") "client" ["GreetCommand"] []
  exact ⟨subs, fcI, steady, h1, h3⟩

/-- C7: for every dequeued result, the steady-state loop first emits a
`CommandResponse` instruction whose response has `request_identifier`
equal to the original command's message identifier and a freshly drawn
message identifier; on success the payload is the outcome's response
(absent when there is none) with empty error code, on failure the error
code is `"ERROR"` with an error message carrying the failure's text; and
the loop continues with the remaining queue in either case. -/
theorem command_response_shape (gen : Nat → String) (client_id : String)
    (c : Nat) (permits : Int) (r : AxonCommandResult)
    (rest : List AxonCommandResult) :
    (∃ restInstructions,
      (steadyStep gen client_id c permits r).1
        = { instruction_id := gen (c + 1)
            request := some (.commandResponse (steadyResponse gen c r)) }
          :: restInstructions) ∧
    (steadyResponse gen c r).message_identifier = gen c ∧
    (steadyResponse gen c r).request_identifier = r.message_identifier ∧
    (∀ result, r.result = .ok result →
      (steadyResponse gen c r).payload
          = (result.map (fun x => x.response)).join ∧
      (steadyResponse gen c r).error_code = "") ∧
    (∀ e, r.result = .error e →
      (steadyResponse gen c r).error_code = "ERROR" ∧
      (steadyResponse gen c r).error_message = some
        { message := e.toString
          location := ""
          details := []
          error_code := "ERROR" }) ∧
    (steadyRun gen client_id (r :: rest) c permits).1
      = (steadyStep gen client_id c permits r).1 ++
        (steadyRun gen client_id rest (steadyStep gen client_id c permits r).2.1
          (steadyStep gen client_id c permits r).2.2).1 := by
  refine ⟨?_, ?_, ?_, ?_, ?_, ?_⟩
  · by_cases hp : permits - 1 ≤ permits_batch_size
    · rw [steadyStep_eq_grant gen client_id c permits r hp]
      exact ⟨_, rfl⟩
    · rw [steadyStep_eq_nogrant gen client_id c permits r hp]
      exact ⟨_, rfl⟩
  · rcases r with ⟨mid, res⟩
    cases res <;> simp [steadyResponse]
  · rcases r with ⟨mid, res⟩
    cases res <;> simp [steadyResponse]
  · intro result hr
    simp [steadyResponse, hr]
  · intro e hr
    simp [steadyResponse, hr]
  · rw [steadyRun_cons]

/-- Witness for `command_response_shape` at a failed result: the response
carries error code ERROR and the failure's text. -/
theorem command_response_shape_witness :
    (steadyResponse (fun _ => "u") 0
      { message_identifier := "m1"
        result := .error .missingAggregateIdentifier }).error_code = "ERROR" ∧
    (steadyResponse (fun _ => "u") 0
      { message_identifier := "m1"
        result := .error .missingAggregateIdentifier }).error_message = some
        { message := CwError.missingAggregateIdentifier.toString
          location := ""
          details := []
          error_code := "ERROR" } :=
  (command_response_shape (fun _ => "u") "client" 0 6
    { message_identifier := "m1"
      result := .error .missingAggregateIdentifier } []).2.2.2.2.1
    CwError.missingAggregateIdentifier rfl

/-- Splitting the per-aggregate fold of `register` into its two components:
appending the command names, and inserting each binding into the routing
table. -/
theorem register_inner_fold (a : String) :
    ∀ (names : List String) (cs : List String) (m : List (String × String)),
      names.foldl
        (fun acc2 command_name =>
          (acc2.1 ++ [command_name], routingInsert acc2.2 command_name a))
        (cs, m)
      = (cs ++ names,
         names.foldl (fun acc command_name => routingInsert acc command_name a) m) := by
  intro names
  induction names with
  | nil => intro cs m; simp
  | cons c rest ih =>
    intro cs m
    simp only [List.foldl_cons]
    rw [ih]
    simp

/-- Unfolding `register` over the first aggregate handle. -/
theorem register_handlers_cons (entry : String × AggregateHandle)
    (rest : List (String × AggregateHandle)) (cs : List String)
    (m : List (String × String)) :
    TheAggregateRegistry.register { handlers := entry :: rest } cs m
      = TheAggregateRegistry.register { handlers := rest }
          (cs ++ entry.2.command_names)
          (entry.2.command_names.foldl
            (fun acc command_name => routingInsert acc command_name entry.1) m) := by
  simp only [TheAggregateRegistry.register, List.foldl_cons]
  rw [register_inner_fold]

/-- Routing-table lookup after inserting every name of one aggregate:
names of the batch resolve to that aggregate, other lookups are
unchanged. -/
theorem routingGet_insert_fold (a : String) :
    ∀ (names : List String) (m : List (String × String)) (name : String),
      routingGet
        (names.foldl (fun acc command_name => routingInsert acc command_name a) m)
        name
      = if name ∈ names then some a else routingGet m name := by
  intro names
  induction names with
  | nil => intro m name; simp
  | cons c rest ih =>
    intro m name
    simp only [List.foldl_cons]
    rw [ih]
    by_cases hmem : name ∈ rest
    · simp [hmem]
    · by_cases hc : name = c
      · subst hc
        simp [hmem, routingGet, routingInsert]
      · have hbeq : (c == name) = false := by
          simp
          exact Ne.symm hc
        simp [hmem, hc, routingGet, routingInsert, hbeq]

/-- A command name exposed by no registered aggregate is left unchanged by
`register` in the routing table. -/
theorem routingGet_register_not_mem :
    ∀ (handlers : List (String × AggregateHandle)) (cs : List String)
      (m : List (String × String)) (name : String),
      (∀ e ∈ handlers, name ∉ e.2.command_names) →
      routingGet (TheAggregateRegistry.register { handlers := handlers } cs m).2 name
        = routingGet m name := by
  intro handlers
  induction handlers with
  | nil => intro cs m name _; rfl
  | cons entry rest ih =>
    intro cs m name h
    rw [register_handlers_cons]
    rw [ih _ _ _ (fun e he => h e (List.mem_cons_of_mem _ he))]
    rw [routingGet_insert_fold]
    simp [h entry (List.mem_cons_self _ _)]

/-- A command name exposed by some registered aggregate resolves, after
`register`, to the aggregate name of one of the handles exposing it. -/
theorem routingGet_register_mem :
    ∀ (handlers : List (String × AggregateHandle)) (cs : List String)
      (m : List (String × String)) (name : String),
      (∃ e ∈ handlers, name ∈ e.2.command_names) →
      ∃ e ∈ handlers, name ∈ e.2.command_names ∧
        routingGet (TheAggregateRegistry.register { handlers := handlers } cs m).2 name
          = some e.1 := by
  intro handlers
  induction handlers with
  | nil => intro cs m name h; exact absurd h (by simp)
  | cons entry rest ih =>
    intro cs m name h
    by_cases hrest : ∃ e ∈ rest, name ∈ e.2.command_names
    · obtain ⟨e, he, hname, hget⟩ := ih (cs ++ entry.2.command_names)
        (entry.2.command_names.foldl
          (fun acc command_name => routingInsert acc command_name entry.1) m)
        name hrest
      refine ⟨e, List.mem_cons_of_mem _ he, hname, ?_⟩
      rw [register_handlers_cons]
      exact hget
    · have hentry : name ∈ entry.2.command_names := by
        rcases h with ⟨e, he, hname⟩
        rcases List.mem_cons.mp he with rfl | he'
        · exact hname
        · exact absurd ⟨e, he', hname⟩ hrest
      refine ⟨entry, List.mem_cons_self _ _, hentry, ?_⟩
      rw [register_handlers_cons]
      rw [routingGet_register_not_mem rest _ _ name
        (fun e he hn => hrest ⟨e, he, hn⟩)]
      rw [routingGet_insert_fold]
      simp [hentry]

/-- A command name appears in the command list built by `register` exactly
when it was there already or some registered aggregate exposes it. -/
theorem register_commands_mem :
    ∀ (handlers : List (String × AggregateHandle)) (cs : List String)
      (m : List (String × String)) (name : String),
      (name ∈ (TheAggregateRegistry.register { handlers := handlers } cs m).1 ↔
        name ∈ cs ∨ ∃ e ∈ handlers, name ∈ e.2.command_names) := by
  intro handlers
  induction handlers with
  | nil => intro cs m name; simp [TheAggregateRegistry.register]
  | cons entry rest ih =>
    intro cs m name
    rw [register_handlers_cons, ih]
    simp only [List.mem_append, List.mem_cons]
    constructor
    · rintro ((h | h) | ⟨e, he, hn⟩)
      · exact Or.inl h
      · exact Or.inr ⟨entry, Or.inl rfl, h⟩
      · exact Or.inr ⟨e, Or.inr he, hn⟩
    · rintro (h | ⟨e, (rfl | he), hn⟩)
      · exact Or.inl (Or.inl h)
      · exact Or.inl (Or.inr hn)
      · exact Or.inr ⟨e, he, hn⟩

/-- C8: every command name exposed by some registered aggregate definition
is appended to the command list and routed, by the table built by
`TheAggregateRegistry.register`, to the aggregate name of a definition
exposing it; a name exposed by no definition has no routing entry and an
inbound command with that name is answered with the
"could not find aggregate handler" error instead of being dispatched. -/
theorem routing_table_correct (reg : TheAggregateRegistry) (name : String) :
    ((∃ e ∈ reg.handlers, name ∈ e.2.command_names) →
      name ∈ (reg.register [] []).1 ∧
      ∃ e ∈ reg.handlers, name ∈ e.2.command_names ∧
        routingGet (reg.register [] []).2 name = some e.1) ∧
    ((∀ e ∈ reg.handlers, name ∉ e.2.command_names) →
      routingGet (reg.register [] []).2 name = none ∧
      ∀ command : Command, command.name = name →
        worker_dispatch (reg.register [] []).2 reg command
          = .error .couldNotFindAggregateHandler) := by
  obtain ⟨handlers⟩ := reg
  constructor
  · intro h
    exact ⟨(register_commands_mem handlers [] [] name).mpr (Or.inr h),
      routingGet_register_mem handlers [] [] name h⟩
  · intro h
    have hnone : routingGet
        (TheAggregateRegistry.register { handlers := handlers } [] []).2 name
        = none := by
      rw [routingGet_register_not_mem handlers [] [] name h]
      rfl
    refine ⟨hnone, ?_⟩
    intro command hc
    subst hc
    simp [worker_dispatch, hnone]

/-- Witness for `routing_table_correct` on a concrete registry: the exposed
command name is listed, an unknown one has no entry and is answered with
the default error. -/
theorem routing_table_correct_witness :
    "GreetCommand" ∈ (greetingRegistry.register [] []).1 ∧
    routingGet (greetingRegistry.register [] []).2 "Unknown" = none ∧
    worker_dispatch (greetingRegistry.register [] []).2 greetingRegistry
      { name := "Unknown", message_identifier := "m", payload := none }
      = .error .couldNotFindAggregateHandler := by
  have h1 := (routing_table_correct greetingRegistry "GreetCommand").1
    ⟨("Greeting",
      { name := "Greeting"
        command_names := ["GreetCommand"]
        handle := fun _ => .ok none }), by simp [greetingRegistry], by simp⟩
  have h2 := (routing_table_correct greetingRegistry "Unknown").2
    (by simp [greetingRegistry])
  exact ⟨h1.1, h2.1, h2.2 _ rfl⟩

/-- C10: every `Event` record constructed by `store_events` carries
`aggregate_type` equal to the literal string `"Greeting"` and `snapshot`
equal to `false`, for every client, aggregate identifier and outcome. -/
theorem store_events_aggregate_type_and_snapshot
    (client : EventStoreClient) (aggregate_id message_identifier : String)
    (timestamp : Int) (events : EmitApplicableEventsAndResponse) :
    ∀ e ∈ store_events client aggregate_id message_identifier timestamp events,
      e.aggregate_type = "Greeting" ∧ e.snapshot = false := by
  intro e he
  simp only [store_events, List.mem_map] at he
  obtain ⟨x, _, rfl⟩ := he
  exact ⟨rfl, rfl⟩

/-- Witness for `store_events_aggregate_type_and_snapshot` at a concrete
client and one-event outcome. -/
theorem store_events_aggregate_type_and_snapshot_witness :
    ({ message_identifier := "m", timestamp := 0, aggregate_identifier := "a",
       aggregate_sequence_number := 6, aggregate_type := "Greeting",
       payload := some { type := "EventA", revision := "", data := [1] },
       meta_data := [], snapshot := false } : Event).aggregate_type = "Greeting" ∧
    ({ message_identifier := "m", timestamp := 0, aggregate_identifier := "a",
       aggregate_sequence_number := 6, aggregate_type := "Greeting",
       payload := some { type := "EventA", revision := "", data := [1] },
       meta_data := [], snapshot := false } : Event).snapshot = false :=
  store_events_aggregate_type_and_snapshot
    { events := fun _ => [], to_sequence_nr := fun _ => 5 } "a" "m" 0
    { events := [("EventA", { encoded := [1] })], response := none }
    _ (by decide)

/-- C1: `store_events` assigns the same `aggregate_sequence_number`,
namely `to_sequence_nr + 1`, to every event of a multi-event outcome: with
pre-fetched highest sequence number 5 and a two-event outcome both
constructed records get 6, so the assigned numbers are neither pairwise
distinct nor strictly increasing. -/
theorem store_events_sequence_numbers_collide :
    (store_events { events := fun _ => [], to_sequence_nr := fun _ => 5 }
      "aggregate-1" "message-1" 0
      { events := [("EventA", { encoded := [1] }), ("EventB", { encoded := [2] })],
        response := none }).map (fun e => e.aggregate_sequence_number) = [6, 6] ∧
    ¬ List.Pairwise (fun a b : Int => a ≠ b) [6, 6] := by
  exact ⟨rfl, by decide⟩

/-- Reduction of a successful bind in the `Except` monad. -/
theorem cw_bind_ok {α β : Type} (a : α) (f : α → Except CwError β) :
    (Except.ok a >>= f) = f a := rfl

/-- Reduction of a failed bind in the `Except` monad. -/
theorem cw_bind_error {α β : Type} (e : CwError) (f : α → Except CwError β) :
    ((Except.error e : Except CwError α) >>= f) = Except.error e := rfl

/-- C5 counterexample: with a resolved pre-dispatch identifier, a fetched
history containing an event of unregistered payload type `"Ev"` and an
empty command registry, `handle_command` fails with the "no handler"
error — not with the missing-sourcing-handler error the claim predicts. -/
theorem claim_c5_counterexample :
    handle_command sourcingGapCommand sourcingGapDefinition sourcingGapClient
      "m" 0 = .error (.noHandler "Cmd") ∧
    handle_command sourcingGapCommand sourcingGapDefinition sourcingGapClient
      "m" 0 ≠ .error (.missingSourcingHandler "Ev") := by
  exact ⟨by decide, by decide⟩

/-- C5 (amended): the command-registry lookup precedes the replay fold:
when the pre-dispatch id-extraction step succeeds, a command whose name
has no command-registry entry fails with the "no handler" error regardless
of the fetched history, and the missing-sourcing-handler error is reported
when the lookup succeeds and the replay fold meets an event payload type
with no registered sourcing handler. -/
theorem command_lookup_precedes_replay {P : Type} (command : Command)
    (ad : AggregateDefinition P) (client : EventStoreClient)
    (msgId : String) (ts : Int) (pl : SerializedObject) :
    (∀ (ext : IdExtractor) (aggId : Option String),
      command.payload = some pl →
      ad.aggregate_id_extractor_registry.get command.name = some ext →
      ext pl.data = Except.ok aggId →
      ad.command_handler_registry.get command.name = none →
      handle_command command ad client msgId ts
        = .error (.noHandler command.name)) ∧
    (∀ (ext : IdExtractor) (id : String) (h : CommandHandler P) (t : String),
      command.payload = some pl →
      ad.aggregate_id_extractor_registry.get command.name = some ext →
      ext pl.data = Except.ok (some id) →
      ad.command_handler_registry.get command.name = some h →
      replay_events ad.sourcing_handler_registry (client.events id)
        (ad.empty_projection ()) = .error (.missingSourcingHandler t) →
      handle_command command ad client msgId ts
        = .error (.missingSourcingHandler t)) := by
  constructor
  · intro ext aggId hpl hext hid hh
    simp only [handle_command, hpl, hext, hid, hh, cw_bind_ok, cw_bind_error]
  · intro ext id h t hpl hext hid hh hreplay
    simp only [handle_command, hpl, hext, hid, hh, hreplay, cw_bind_ok,
      cw_bind_error]

/-- Witness for `command_lookup_precedes_replay`: the concrete setup of the
counterexample, settled through the amended theorem. -/
theorem command_lookup_precedes_replay_witness :
    handle_command sourcingGapCommand sourcingGapDefinition sourcingGapClient
      "w" 0 = .error (.noHandler "Cmd") :=
  (command_lookup_precedes_replay sourcingGapCommand sourcingGapDefinition
    sourcingGapClient "w" 0 { type := "Cmd", revision := "", data := [] }).1
    (fun _ => .ok (some "agg")) (some "agg") rfl rfl rfl rfl

/-- C4: a command with no pre-dispatch id extractor entry whose handler
outcome carries a response of a type registered in the id-extractor
registry resolves the identifier post-dispatch, persists the outcome's
events and returns success; when the post-dispatch resolution also yields
no identifier, `handle_command` fails with the
missing-aggregate-identifier error. -/
theorem post_dispatch_identifier_resolution {P : Type} (command : Command)
    (ad : AggregateDefinition P) (client : EventStoreClient)
    (msgId : String) (ts : Int) (pl : SerializedObject) (h : CommandHandler P) :
    (∀ (outcome : EmitApplicableEventsAndResponse) (resp : SerializedObject)
       (ext2 : IdExtractor) (id : String),
      command.payload = some pl →
      (ad.aggregate_id_extractor_registry.get command.name = none ∨
        ∃ ext, ad.aggregate_id_extractor_registry.get command.name = some ext ∧
          ext pl.data = Except.ok none) →
      ad.command_handler_registry.get command.name = some h →
      h pl.data (ad.empty_projection ()) = .ok (some outcome) →
      outcome.response = some resp →
      ad.aggregate_id_extractor_registry.get resp.type = some ext2 →
      ext2 resp.data = Except.ok (some id) →
      handle_command command ad client msgId ts = .ok
        (some { events := [], response := outcome.response },
         store_events client id msgId ts outcome)) ∧
    (∀ (result : Option EmitApplicableEventsAndResponse),
      command.payload = some pl →
      (ad.aggregate_id_extractor_registry.get command.name = none ∨
        ∃ ext, ad.aggregate_id_extractor_registry.get command.name = some ext ∧
          ext pl.data = Except.ok none) →
      ad.command_handler_registry.get command.name = some h →
      h pl.data (ad.empty_projection ()) = .ok result →
      post_dispatch_aggregate_id ad none result = Except.ok none →
      handle_command command ad client msgId ts
        = .error .missingAggregateIdentifier) := by
  constructor
  · intro outcome resp ext2 id hpl hext0 hh hres hresp hext2 hid2
    rcases hext0 with hext | ⟨ext, hext, hnone⟩
    · simp only [handle_command, hpl, hext, hh, hres, cw_bind_ok,
        post_dispatch_aggregate_id, hresp, hext2, hid2, Option.map_some,
        Option.map_some']
    · simp only [handle_command, hpl, hext, hnone, hh, hres, cw_bind_ok,
        post_dispatch_aggregate_id, hresp, hext2, hid2, Option.map_some,
        Option.map_some']
  · intro result hpl hext0 hh hres hpost
    rcases hext0 with hext | ⟨ext, hext, hnone⟩
    · simp only [handle_command, hpl, hext, hh, hres, hpost, cw_bind_ok,
        cw_bind_error]
    · simp only [handle_command, hpl, hext, hnone, hh, hres, hpost, cw_bind_ok,
        cw_bind_error]

/-- Witness for `post_dispatch_identifier_resolution` on the concrete
creation command: the identifier `"xxx"` comes from the response, the one
event is persisted with sequence number 42 and the response is returned. -/
theorem post_dispatch_identifier_resolution_witness :
    handle_command creationCommand creationDefinition creationClient "mid" 5
      = .ok (some { events := []
                    response := some { type := "Ack", revision := "", data := [1] } },
             [{ message_identifier := "mid"
                timestamp := 5
                aggregate_identifier := "xxx"
                aggregate_sequence_number := 42
                aggregate_type := "Greeting"
                payload := some { type := "Ev", revision := "", data := [7] }
                meta_data := []
                snapshot := false }]) := by
  have h := (post_dispatch_identifier_resolution creationCommand
    creationDefinition creationClient "mid" 5
    { type := "CreateCmd", revision := "", data := [] }
    (fun _ _ => .ok (some
      { events := [("Ev", { encoded := [7] })]
        response := some { type := "Ack", revision := "", data := [1] } }))).1
    { events := [("Ev", { encoded := [7] })]
      response := some { type := "Ack", revision := "", data := [1] } }
    { type := "Ack", revision := "", data := [1] }
    (fun _ => .ok (some "xxx")) "xxx" rfl (Or.inl rfl) rfl rfl rfl rfl rfl
  exact h.trans (by decide)

/-- C6: the replay fold of `handle_command` folds the fetched history in
order into the projection built from `empty_projection`: each event's
registered sourcing handler is invoked with the payload bytes and the
current projection, the projection is replaced by a produced result and
kept unchanged when none is produced; and under a resolved pre-dispatch
identifier the command handler is invoked with exactly the replayed
projection. -/
theorem replay_fold_semantics {P : Type} (ad : AggregateDefinition P) :
    (∀ p : P, replay_events ad.sourcing_handler_registry [] p = .ok p) ∧
    (∀ (event : Event) (rest : List Event) (p : P) (pl : SerializedObject)
       (sh : SourcingHandler P),
      event.payload = some pl →
      ad.sourcing_handler_registry.get pl.type = some sh →
      (∀ p' : P, sh pl.data p = .ok (some p') →
        replay_events ad.sourcing_handler_registry (event :: rest) p
          = replay_events ad.sourcing_handler_registry rest p') ∧
      (sh pl.data p = .ok none →
        replay_events ad.sourcing_handler_registry (event :: rest) p
          = replay_events ad.sourcing_handler_registry rest p)) ∧
    (∀ (command : Command) (client : EventStoreClient) (msgId : String)
       (ts : Int) (pl : SerializedObject) (ext : IdExtractor) (id : String)
       (h : CommandHandler P) (proj : P) (e2 : CwError),
      command.payload = some pl →
      ad.aggregate_id_extractor_registry.get command.name = some ext →
      ext pl.data = Except.ok (some id) →
      ad.command_handler_registry.get command.name = some h →
      replay_events ad.sourcing_handler_registry (client.events id)
        (ad.empty_projection ()) = .ok proj →
      h pl.data proj = .error e2 →
      handle_command command ad client msgId ts = .error e2) := by
  refine ⟨fun p => rfl, ?_, ?_⟩
  · intro event rest p pl sh hple hsh
    constructor
    · intro p' hp'
      simp only [replay_events, hple, hsh, hp', Option.getD]
    · intro hp
      simp only [replay_events, hple, hsh, hp, Option.getD]
  · intro command client msgId ts pl ext id h proj e2 hpl hext hid hh hreplay hres
    simp only [handle_command, hpl, hext, hid, hh, hreplay, hres, cw_bind_ok,
      cw_bind_error]

/-- Witness for `replay_fold_semantics`: the two-event history is folded
from the empty projection 0 through lengths 3 and 1 to the projection 4,
which the probing command handler reports. -/
theorem replay_fold_semantics_witness :
    handle_command sourcingGapCommand replayDefinition replayClient "m" 0
      = .error (.custom "4") :=
  (replay_fold_semantics replayDefinition).2.2 sourcingGapCommand replayClient
    "m" 0 { type := "Cmd", revision := "", data := [] }
    (fun _ => .ok (some "agg")) "agg"
    (fun _ p => .error (.custom (Nat.repr p))) 4 (.custom "4")
    rfl rfl rfl rfl (by decide) rfl

/-- C9: for a successfully handled command with a resolved pre-dispatch
aggregate identifier, the value returned upstream carries an empty events
list and exactly the outcome's response, while the outcome's events are
the ones persisted through `store_events`. -/
theorem events_stripped_from_result {P : Type} (command : Command)
    (ad : AggregateDefinition P) (client : EventStoreClient)
    (msgId : String) (ts : Int) (pl : SerializedObject) (ext : IdExtractor)
    (id : String) (h : CommandHandler P) (proj : P)
    (outcome : EmitApplicableEventsAndResponse) :
    command.payload = some pl →
    ad.aggregate_id_extractor_registry.get command.name = some ext →
    ext pl.data = Except.ok (some id) →
    ad.command_handler_registry.get command.name = some h →
    replay_events ad.sourcing_handler_registry (client.events id)
      (ad.empty_projection ()) = .ok proj →
    h pl.data proj = .ok (some outcome) →
    handle_command command ad client msgId ts = .ok
      (some { events := [], response := outcome.response },
       store_events client id msgId ts outcome) := by
  intro hpl hext hid hh hreplay hres
  simp only [handle_command, hpl, hext, hid, hh, hreplay, hres, cw_bind_ok,
    post_dispatch_aggregate_id, Option.map_some, Option.map_some']

/-- Witness for `events_stripped_from_result`: the persisted event carries
the outcome's payload with sequence number 8 while the returned value has
an empty events list and the outcome's response. -/
theorem events_stripped_from_result_witness :
    handle_command sourcingGapCommand persistDefinition persistClient "mid" 3
      = .ok (some { events := []
                    response := some { type := "Ack", revision := "", data := [2] } },
             [{ message_identifier := "mid"
                timestamp := 3
                aggregate_identifier := "agg"
                aggregate_sequence_number := 8
                aggregate_type := "Greeting"
                payload := some { type := "Ev", revision := "", data := [9] }
                meta_data := []
                snapshot := false }]) := by
  have h := events_stripped_from_result sourcingGapCommand persistDefinition
    persistClient "mid" 3 { type := "Cmd", revision := "", data := [] }
    (fun _ => .ok (some "agg")) "agg"
    (fun _ _ => .ok (some
      { events := [("Ev", { encoded := [9] })]
        response := some { type := "Ack", revision := "", data := [2] } }))
    0
    { events := [("Ev", { encoded := [9] })]
      response := some { type := "Ack", revision := "", data := [2] } }
    rfl rfl rfl rfl rfl rfl
  exact h.trans (by decide)

end CommandWorker
